import Mathlib

/-!
Verification of the ticker-scoring and aggregation engine of the
ai-finance-tech-dashboard repository.

The Python sources are shallowly embedded:
* SQLite tables become lists of records; SQL updates become list maps/filters.
* Python / SQLite floats become rationals; all numbers in the claims are
  exactly representable, so rational arithmetic agrees with the source.
* Python / SQLite strings are treated character-wise (`SUBSTR`, `LOWER` and
  Python slicing all count characters); `String.data` gives the character list.
* SQL ORDER BY is modelled by the stable `List.insertionSort` on the same key;
  where SQLite leaves the relative order of equal keys unspecified
  (a bare ORDER BY over a GROUP BY), the embedding fixes the grouping order
  (group key ascending), matching observed SQLite behaviour.
-/

set_option maxRecDepth 4000

namespace AIFinance

/-! ## String helpers (character-wise models of Python and SQLite operations) -/

/-- Python `needle == hay[:len(needle)]` on character lists. -/
def startsWithChars : List Char → List Char → Bool
  | [], _ => true
  | _ :: _, [] => false
  | a :: as, b :: bs => a == b && startsWithChars as bs

/-- Python `needle in hay` on character lists. -/
def hasSubChars (needle : List Char) : List Char → Bool
  | [] => startsWithChars needle []
  | b :: bs => startsWithChars needle (b :: bs) || hasSubChars needle bs

/-- Python substring test `needle in hay`. -/
def strContainsSub (hay needle : String) : Bool :=
  hasSubChars needle.data hay.data

/-- Python `s.lower()` / SQLite `LOWER(s)` (ASCII case folding, character-wise). -/
def lowerStr (s : String) : String :=
  String.mk (s.data.map Char.toLower)

/-- Python `s[:n]` / SQLite `SUBSTR(s, 1, n)` (character-wise). -/
def pyTake (n : Nat) (s : String) : String :=
  String.mk (s.data.take n)

/-- SQLite `SUBSTR(title, 1, 50)` as used by the duplicate check. -/
def substr50 (s : String) : String := pyTake 50 s

/-! ## Mention store and scoring (db_manager.py)

`TickerMention` is the dataclass of `db_manager.py`; `add_ticker_mention`
computes the weighted score at insert time:

    base = 20.0 if mention.source_type == 'podcast' else 10.0
    weight = 2.0 if mention.source_type == 'podcast'
             else (1.5 if mention.is_disruption_focused else 0.5)
    conviction_mult = 1.0 + (mention.conviction_score / 100.0)
    weighted = base * weight * conviction_mult
-/

structure TickerMention where
  ticker : String
  source_type : String
  source_name : String
  episode_title : String := ""
  context : String := ""
  conviction_score : Int := 0
  sentiment : String := "neutral"
  timeframe : String := "unspecified"
  is_contrarian : Bool := false
  is_disruption_focused : Bool := false
deriving DecidableEq, Repr

def mention_base (m : TickerMention) : ℚ :=
  if m.source_type = "podcast" then 20 else 10

def type_weight (m : TickerMention) : ℚ :=
  if m.source_type = "podcast" then 2
  else if m.is_disruption_focused then 3/2 else 1/2

def conviction_mult (m : TickerMention) : ℚ :=
  1 + (m.conviction_score : ℚ) / 100

def weighted_score (m : TickerMention) : ℚ :=
  mention_base m * type_weight m * conviction_mult m

/-- A persisted row of the `ticker_mentions` table.  `mention_date` is the
(day of the) SQL `mention_date` column; `add_ticker_mention` lets it default
to the insertion day. -/
structure MentionRow where
  ticker : String
  source_type : String
  source_name : String
  episode_title : String
  conviction_score : Int
  sentiment : String
  timeframe : String
  is_disruption_focused : Bool
  weighted_score : ℚ
  mention_date : String
deriving DecidableEq, Repr

/-- The row `add_ticker_mention` inserts for a mention on day `d`. -/
def mentionRow (m : TickerMention) (d : String) : MentionRow :=
  { ticker := m.ticker
    source_type := m.source_type
    source_name := m.source_name
    episode_title := m.episode_title
    conviction_score := m.conviction_score
    sentiment := m.sentiment
    timeframe := m.timeframe
    is_disruption_focused := m.is_disruption_focused
    weighted_score := weighted_score m
    mention_date := d }

/-- `DashboardDB.add_ticker_mention`: one INSERT into `ticker_mentions`.
It performs no validation and cannot reject a mention. -/
def add_ticker_mention (tbl : List MentionRow) (m : TickerMention) (d : String) :
    List MentionRow :=
  tbl ++ [mentionRow m d]

/-- The clamp applied in the separate repair script `fix_ticker_mentions.py`
(`conviction = max(-100, min(100, conviction))`).  `add_ticker_mention`
itself does not clamp. -/
def clampConviction (c : Int) : Int := max (-100) (min 100 c)

/-- What the weighted score would be if `add_ticker_mention` clamped the
conviction before computing it (it does not; see claim C5). -/
def weighted_score_clamped (m : TickerMention) : ℚ :=
  mention_base m * type_weight m * (1 + (clampConviction m.conviction_score : ℚ) / 100)

/-! ## Newsletter import (run_pipeline.py, import_newsletters_to_db)

Each extracted ticker of a newsletter becomes a `TickerMention` with
`source_type='newsletter'`; `is_disruption_focused` is set when ANY
disruption keyword occurs in the lower-cased subject+preview text.
(`auto_pipeline.import_newsletters` has the same logic with one extra
keyword, "inflection point".) -/

def disruption_keywords : List String :=
  ["disruption", "disruptive", "paradigm shift", "game changer",
   "breakthrough", "transformation", "revolutionary"]

/-- `content = str(subject) + ' ' + str(content_preview)`. -/
def newsletterText (subject preview : String) : String :=
  subject ++ " " ++ preview

/-- `is_disruption = any(kw in content_lower for kw in disruption_keywords)`. -/
def is_disruption_text (subject preview : String) : Bool :=
  disruption_keywords.any
    (fun kw => strContainsSub (lowerStr (newsletterText subject preview)) kw)

/-- The `TickerMention` built by the newsletter import for one ticker. -/
def newsletter_mention (ticker sender subject preview : String) : TickerMention :=
  { ticker := ticker
    source_type := "newsletter"
    source_name := sender
    episode_title := pyTake 100 subject
    context := pyTake 300 preview
    is_disruption_focused := is_disruption_text subject preview }

/-- How many disruption keywords are detected in a newsletter's text
(each by the same substring test the import uses).  The import itself only
uses whether this count is nonzero. -/
def detected_keyword_count (subject preview : String) : Nat :=
  disruption_keywords.countP
    (fun kw => strContainsSub (lowerStr (newsletterText subject preview)) kw)

/-- Modelled from the spec's words for comparison (claim C1): a newsletter
type multiplier of 0.5 plus 0.25 per detected keyword, capped at 1.5. -/
def claimed_newsletter_type_weight (k : Nat) : ℚ :=
  min (1/2 + (k : ℚ) * (1/4)) (3/2)

/-! ## Duplicate detection (analyze_transcript.py, episode_exists_in_db) -/

/-- A stored row of `podcast_episodes`, with the columns the duplicate
check reads.  `rss_guid` is NULL-able. -/
structure EpisodeRow where
  podcast_name : String
  episode_title : String
  rss_guid : Option String := none
deriving DecidableEq, Repr

/-- Python truthiness of the optional `rss_guid` argument
(`if rss_guid:` is false for `None` and for the empty string). -/
def guidTruthy : Option String → Bool
  | none => false
  | some g => !(g == "")

/-- `episode_exists_in_db`: guid match, then exact (podcast_name, title)
match, then case-insensitive first-50-character title match within the
same podcast; true iff one of the three queries finds a row. -/
def episode_exists_in_db (db : List EpisodeRow) (podcast_name episode_title : String)
    (rss_guid : Option String) : Bool :=
  (guidTruthy rss_guid && db.any (fun e => e.rss_guid == rss_guid)) ||
  db.any (fun e => e.podcast_name == podcast_name && e.episode_title == episode_title) ||
  db.any (fun e => e.podcast_name == podcast_name &&
    lowerStr (substr50 e.episode_title) == lowerStr (substr50 episode_title))

/-! ## Suggested-term auto-curation (auto_curate_terms.py, analyze_term_quality) -/

/-- `analyze_term_quality` on a pending suggested term
(`relevance_score`, `source_diversity`, `mention_count`; missing values
default to 0 before the call). -/
def analyze_term_quality (relevance sources mentions : Int) : String :=
  if 70 ≤ relevance ∧ 2 ≤ sources ∧ 3 ≤ mentions then "auto_promote"
  else if 40 ≤ relevance then "manual_review"
  else "skip"

/-- Modelled from the spec's words for comparison (claim C9): review is
claimed only for relevance between 40 and 70 (read inclusively), and
everything else that is not promoted is discarded. -/
def claimed_term_decision (relevance sources mentions : Int) : String :=
  if 70 ≤ relevance ∧ 2 ≤ sources ∧ 3 ≤ mentions then "auto_promote"
  else if 40 ≤ relevance ∧ relevance ≤ 70 then "manual_review"
  else "skip"

/-! ## Displayable content and archive_item (db_manager.py) -/

/-- A row of `latest_insights` (the columns the lifecycle logic touches). -/
structure InsightRow where
  id : Nat
  title : String
  source_date : String
  display_on_main : Bool
  archived_date : Option String := none
  archived_reason : Option String := none
deriving DecidableEq, Repr

/-- A row of `definitions` (the columns `archive_item` touches). -/
structure DefinitionRow where
  id : Nat
  term : String
  display_on_main : Bool
  archived_date : Option String := none
  archived_reason : Option String := none
deriving DecidableEq, Repr

/-- A row of `overton_terms` (the columns `archive_item` touches). -/
structure OvertonRow where
  id : Nat
  term : String
  status : String
  display_on_main : Bool
  archived_date : Option String := none
  archived_reason : Option String := none
deriving DecidableEq, Repr

/-- The three content tables `archive_item` can update. -/
structure DBState where
  latest_insights : List InsightRow
  definitions : List DefinitionRow
  overton_terms : List OvertonRow
deriving DecidableEq, Repr

/-- `DashboardDB.archive_item`: UPDATE on the table selected by
`item_type`; an unknown `item_type` matches no branch and nothing runs. -/
def archive_item (st : DBState) (item_type : String) (item_id : Nat)
    (reason : Option String) (today : String) : DBState :=
  if item_type = "insight" then
    { st with latest_insights := st.latest_insights.map (fun i =>
        if i.id == item_id then
          { i with display_on_main := false, archived_date := some today,
                   archived_reason := reason }
        else i) }
  else if item_type = "definition" then
    { st with definitions := st.definitions.map (fun i =>
        if i.id == item_id then
          { i with display_on_main := false, archived_date := some today,
                   archived_reason := reason }
        else i) }
  else if item_type = "overton" then
    { st with overton_terms := st.overton_terms.map (fun i =>
        if i.id == item_id then
          { i with display_on_main := false, status := "archived",
                   archived_date := some today, archived_reason := reason }
        else i) }
  else st

/-! ## Text ordering (SQLite ORDER BY on TEXT columns)

SQLite compares TEXT with memcmp; on UTF-8 data that is code-point order,
modelled here as lexicographic order on the character list. -/

/-- Lexicographic order on character lists by code point. -/
def charListLt : List Char → List Char → Bool
  | _, [] => false
  | [], _ :: _ => true
  | a :: as, b :: bs =>
    decide (a.toNat < b.toNat) || (decide (a.toNat = b.toNat) && charListLt as bs)

/-- SQLite TEXT `<`. -/
def textLt (a b : String) : Bool := charListLt a.data b.data

/-- SQLite TEXT `<=`. -/
def textLe (a b : String) : Bool := textLt a b || a == b

/-! ## Insight auto-archive (auto_pipeline.py, promote_episodes_to_insights)

After promoting episodes the pipeline runs:

    SELECT id FROM latest_insights
    WHERE display_on_main = 1 AND archived_date IS NULL
    ORDER BY source_date DESC, id DESC
    -- keep the first 8 rows, archive the rest:
    UPDATE latest_insights SET display_on_main = 0, archived_date = date('now'),
      archived_reason = 'Auto-archived: keep 8 most recent on main'
    WHERE id = ?
-/

def autoArchiveReason : String := "Auto-archived: keep 8 most recent on main"

/-- The WHERE filter of the auto-archive SELECT. -/
def isActive (i : InsightRow) : Bool := i.display_on_main && i.archived_date.isNone

def activeInsights (s : List InsightRow) : List InsightRow :=
  s.filter isActive

/-- `a` strictly precedes `b` under ORDER BY source_date DESC, id DESC. -/
def insightAfter (a b : InsightRow) : Bool :=
  textLt b.source_date a.source_date ||
    (a.source_date == b.source_date && decide (b.id < a.id))

/-- Sort relation of the auto-archive SELECT: `a` may be listed no later
than `b`. -/
def insightOrder (a b : InsightRow) : Prop := insightAfter b a = false

instance : DecidableRel insightOrder := fun a b =>
  inferInstanceAs (Decidable (insightAfter b a = false))

/-- The ids selected for auto-archival: everything beyond the first 8 rows
of the ordered active-insight list. -/
def autoArchiveIds (s : List InsightRow) : List Nat :=
  (((activeInsights s).insertionSort insightOrder).drop 8).map (fun i => i.id)

/-- The UPDATE applied to one selected row. -/
def archiveInsight (today : String) (i : InsightRow) : InsightRow :=
  { i with display_on_main := false, archived_date := some today,
           archived_reason := some autoArchiveReason }

/-- The full auto-archive step at the end of `promote_episodes_to_insights`,
applied to the post-promotion table state. -/
def auto_archive_step (today : String) (s : List InsightRow) : List InsightRow :=
  s.map (fun i => if (autoArchiveIds s).contains i.id then archiveInsight today i else i)

/-- How many active insights have a strictly more recent `source_date`
than `i` (the claim's "oldest-by-source-date" rank). -/
def newerActiveCount (s : List InsightRow) (i : InsightRow) : Nat :=
  (activeInsights s).countP (fun j => textLt i.source_date j.source_date)

/-! ## Daily aggregation (db_manager.get_top_tickers, auto_pipeline.aggregate_scores)

`get_top_tickers` runs

    SELECT ticker, SUM(weighted_score) as total_score,
           COUNT(CASE WHEN source_type = 'podcast' THEN 1 END) as podcast_count,
           COUNT(CASE WHEN source_type = 'newsletter' THEN 1 END) as newsletter_count,
           COUNT(DISTINCT source_name) as unique_sources,
           AVG(conviction_score) as avg_conviction
    FROM ticker_mentions WHERE date(mention_date) = ?
    GROUP BY ticker ORDER BY total_score DESC LIMIT ?

ORDER BY gives no tie-break: rows with equal total_score stay in the
grouping order (ticker ascending), which the stable sort below preserves. -/

/-- First occurrences, in order (the groups a SQL GROUP BY produces,
before sorting them by the group key). -/
def firstOccurrences (l : List String) : List String :=
  l.foldl (fun acc a => if a ∈ acc then acc else acc ++ [a]) []

def tickerAsc (a b : String) : Prop := textLe a b = true

instance : DecidableRel tickerAsc := fun a b =>
  inferInstanceAs (Decidable (textLe a b = true))

/-- The mention rows contributing to day `d`. -/
def rowsFor (d : String) (ms : List MentionRow) : List MentionRow :=
  ms.filter (fun r => r.mention_date == d)

/-- The distinct tickers of a day, in group order (ticker ascending). -/
def dayTickers (rows : List MentionRow) : List String :=
  (firstOccurrences (rows.map (fun r => r.ticker))).insertionSort tickerAsc

def tickerRows (rows : List MentionRow) (t : String) : List MentionRow :=
  rows.filter (fun r => r.ticker == t)

/-- One aggregated row of the `get_top_tickers` result set. -/
structure TopRow where
  ticker : String
  total_score : ℚ
  podcast_count : Nat
  newsletter_count : Nat
  unique_sources : Nat
  avg_conviction : ℚ
deriving DecidableEq, Repr

def topRowFor (rows : List MentionRow) (t : String) : TopRow :=
  let rs := tickerRows rows t
  { ticker := t
    total_score := (rs.map (fun r => r.weighted_score)).sum
    podcast_count := rs.countP (fun r => r.source_type == "podcast")
    newsletter_count := rs.countP (fun r => r.source_type == "newsletter")
    unique_sources := (firstOccurrences (rs.map (fun r => r.source_name))).length
    avg_conviction := (rs.map (fun r => (r.conviction_score : ℚ))).sum / (rs.length : ℚ) }

/-- ORDER BY total_score DESC (stable; ties keep the grouping order). -/
def scoreDesc (a b : TopRow) : Prop := b.total_score ≤ a.total_score

instance : DecidableRel scoreDesc := fun a b =>
  inferInstanceAs (Decidable (b.total_score ≤ a.total_score))

/-- `DashboardDB.get_top_tickers date_filter limit`. -/
def get_top_tickers (d : String) (lim : Nat) (ms : List MentionRow) : List TopRow :=
  let rows := rowsFor d ms
  (((dayTickers rows).map (topRowFor rows)).insertionSort scoreDesc).take lim

/-- A row of the `daily_scores` table. -/
structure DailyScoreRow where
  ticker : String
  date : String
  total_score : ℚ
  podcast_mentions : Nat
  newsletter_mentions : Nat
  disruption_signals : Nat
  unique_sources : Nat
  conviction_level : String
  contrarian_signal : String
  timeframe : String
  rank : Nat
deriving DecidableEq, Repr

/-- Python `enumerate(xs, start)`. -/
def pyEnumerate (start : Nat) : List TopRow → List (Nat × TopRow)
  | [] => []
  | r :: rest => (start, r) :: pyEnumerate (start + 1) rest

/-- `avg_conviction = row.get('avg_conviction', 50) or 50`: a missing or
zero (falsy) average becomes 50. -/
def effectiveAvg (avg : ℚ) : ℚ := if avg = 0 then 50 else avg

def convictionLevel (avg : ℚ) : String :=
  if 70 ≤ avg then "high" else if 40 ≤ avg then "medium" else "low"

def contrarianSignal (bullish bearish total : Nat) : String :=
  if 3 ≤ total ∧ bullish < bearish then "contrarian"
  else if 3 ≤ total ∧ bearish * 2 < bullish then "crowded"
  else "neutral"

/-- The `(timeframe, count)` pairs of one ticker's mentions of the day,
in the GROUP BY order (timeframe ascending). -/
def timeframePairs (rows : List MentionRow) (t : String) : List (String × Nat) :=
  ((firstOccurrences ((tickerRows rows t).map (fun r => r.timeframe))).insertionSort
      tickerAsc).map
    (fun tf => (tf, (tickerRows rows t).countP (fun r => r.timeframe == tf)))

/-- Python `max(items, key=lambda x: x[1])`: the FIRST pair with maximal
count wins. -/
def firstMaxByCount : List (String × Nat) → Option (String × Nat)
  | [] => none
  | p :: rest =>
    (firstMaxByCount rest).casesOn (some p)
      (fun q => if q.2 ≤ p.2 then some p else some q)

/-- The `timeframe` field computed by `aggregate_scores` for one ticker
(`most_common[0] if most_common[0] else 'unspecified'`). -/
def timeframeOf (rows : List MentionRow) (t : String) : String :=
  match firstMaxByCount (timeframePairs rows t) with
  | none => "unspecified"
  | some p => if p.1 == "" then "unspecified" else p.1

/-- The `DailyScore` built from one ranked `get_top_tickers` row. -/
def mkScoreRow (d : String) (rows : List MentionRow) (rank : Nat) (row : TopRow) :
    DailyScoreRow :=
  let bullish := (tickerRows rows row.ticker).countP (fun r => r.sentiment == "bullish")
  let bearish := (tickerRows rows row.ticker).countP (fun r => r.sentiment == "bearish")
  let total := (tickerRows rows row.ticker).length
  { ticker := row.ticker
    date := d
    total_score := row.total_score
    podcast_mentions := row.podcast_count
    newsletter_mentions := row.newsletter_count
    disruption_signals := 0
    unique_sources := row.unique_sources
    conviction_level := convictionLevel (effectiveAvg row.avg_conviction)
    contrarian_signal := contrarianSignal bullish bearish total
    timeframe := timeframeOf rows row.ticker
    rank := rank }

/-- `aggregate_scores`: the list of `DailyScore` rows computed for day `d`
from the mention store (before they are saved). -/
def computeScores (d : String) (ms : List MentionRow) : List DailyScoreRow :=
  (pyEnumerate 1 (get_top_tickers d 30 ms)).map
    (fun p => mkScoreRow d (rowsFor d ms) p.1 p.2)

/-- `INSERT OR REPLACE INTO daily_scores`: the conflicting row (the table
is UNIQUE on (ticker, date), per the spec's schema description; schema.sql
itself is not part of the sources) is deleted and the new row inserted. -/
def upsertScore (tbl : List DailyScoreRow) (r : DailyScoreRow) : List DailyScoreRow :=
  (tbl.filter (fun x => !(x.ticker == r.ticker && x.date == r.date))) ++ [r]

/-- `DashboardDB.save_daily_scores`. -/
def save_daily_scores (tbl : List DailyScoreRow) (scores : List DailyScoreRow) :
    List DailyScoreRow :=
  scores.foldl upsertScore tbl

/-- One run of the daily aggregation for day `d`: compute all scores from
the mention store and upsert them into `daily_scores`. -/
def run_aggregation (d : String) (ms : List MentionRow) (tbl : List DailyScoreRow) :
    List DailyScoreRow :=
  save_daily_scores tbl (computeScores d ms)

/-- The strict (source_date, id) ordering that underlies
ORDER BY source_date DESC, id DESC (claim C2). -/
def keyLt (i j : InsightRow) : Prop :=
  textLt i.source_date j.source_date = true ∨
    (i.source_date = j.source_date ∧ i.id < j.id)

/-- Rows with the same (ticker, date) key collide in the upsert (claim C6). -/
def sameKey (a b : DailyScoreRow) : Bool := a.ticker == b.ticker && a.date == b.date

/-! ## Concrete instances used by the scenario checks -/

/-- Scenario A, podcast mention with conviction 80. -/
def scA1 : TickerMention :=
  { ticker := "NVDA", source_type := "podcast", source_name := "Pod One",
    conviction_score := 80 }

/-- Scenario A, podcast mention with conviction 60. -/
def scA2 : TickerMention :=
  { ticker := "NVDA", source_type := "podcast", source_name := "Pod Two",
    conviction_score := 60 }

/-- Scenario A, newsletter mention with conviction 50, no disruption. -/
def scA3 : TickerMention :=
  { ticker := "NVDA", source_type := "newsletter", source_name := "Letter",
    conviction_score := 50 }

/-- The mention store after adding the three Scenario A mentions on
2026-02-10. -/
def scenarioA : List MentionRow :=
  add_ticker_mention
    (add_ticker_mention (add_ticker_mention [] scA1 "2026-02-10") scA2 "2026-02-10")
    scA3 "2026-02-10"

/-- A newsletter subject containing exactly two disruption keywords
("paradigm shift" and "breakthrough"). -/
def c1_subject : String := "Paradigm shift breakthrough ahead"

/-- A newsletter mention with conviction 200, outside -100..100. -/
def c5_m200 : TickerMention :=
  { ticker := "XYZ", source_type := "newsletter", source_name := "s",
    conviction_score := 200 }

/-- A newsletter mention with conviction -200, outside -100..100. -/
def c5_mNeg200 : TickerMention :=
  { ticker := "XYZ", source_type := "newsletter", source_name := "s",
    conviction_score := -200 }

/-- A podcast mention with the boundary conviction -100. -/
def c8_pod : TickerMention :=
  { ticker := "XYZ", source_type := "podcast", source_name := "p",
    conviction_score := -100 }

/-- A newsletter mention with the boundary conviction -100 and the same
disruption flag. -/
def c8_news : TickerMention :=
  { ticker := "XYZ", source_type := "newsletter", source_name := "n",
    conviction_score := -100 }

/-- Scenario D store: one episode with no guid and the long title. -/
def fedDB : List EpisodeRow :=
  [{ podcast_name := "SomePod", episode_title := "Fed Signals Pivot — Special Edition" }]

/-- Two titles agreeing on their first 50 characters but not beyond. -/
def longTitle1 : String :=
  "abcdefghijabcdefghijabcdefghijabcdefghijabcdefghij Part One"

def longTitle2 : String :=
  "abcdefghijabcdefghijabcdefghijabcdefghijabcdefghij Part Two"

/-- Store holding `longTitle1` with no guid. -/
def longDB : List EpisodeRow :=
  [{ podcast_name := "SomePod", episode_title := longTitle1 }]

/-- The three rule predicates of the duplicate check (claim C3). -/
def guidRule (db : List EpisodeRow) (g : Option String) : Prop :=
  guidTruthy g = true ∧ ∃ e ∈ db, e.rss_guid = g

def exactRule (db : List EpisodeRow) (pn et : String) : Prop :=
  ∃ e ∈ db, e.podcast_name = pn ∧ e.episode_title = et

def sub50Rule (db : List EpisodeRow) (pn et : String) : Prop :=
  ∃ e ∈ db, e.podcast_name = pn ∧
    lowerStr (substr50 e.episode_title) = lowerStr (substr50 et)

/-- C4 counterexample mentions: tickers "AAA" and "BBB" tie at
total_score 40 while "BBB" has more distinct sources. -/
def c4mA : TickerMention :=
  { ticker := "AAA", source_type := "podcast", source_name := "s1", conviction_score := 0 }

def c4mB1 : TickerMention :=
  { ticker := "BBB", source_type := "newsletter", source_name := "s2",
    conviction_score := 100, is_disruption_focused := true }

def c4mB2 : TickerMention :=
  { ticker := "BBB", source_type := "newsletter", source_name := "s3",
    conviction_score := 100 }

def c4_mentions : List MentionRow :=
  [mentionRow c4mA "2026-02-10", mentionRow c4mB1 "2026-02-10", mentionRow c4mB2 "2026-02-10"]

/-- The stored row of `c4mA`. -/
def c4rA : MentionRow :=
  { ticker := "AAA", source_type := "podcast", source_name := "s1", episode_title := "",
    conviction_score := 0, sentiment := "neutral", timeframe := "unspecified",
    is_disruption_focused := false, weighted_score := 40, mention_date := "2026-02-10" }

/-- The stored row of `c4mB1`. -/
def c4rB1 : MentionRow :=
  { ticker := "BBB", source_type := "newsletter", source_name := "s2", episode_title := "",
    conviction_score := 100, sentiment := "neutral", timeframe := "unspecified",
    is_disruption_focused := true, weighted_score := 30, mention_date := "2026-02-10" }

/-- The stored row of `c4mB2`. -/
def c4rB2 : MentionRow :=
  { ticker := "BBB", source_type := "newsletter", source_name := "s3", episode_title := "",
    conviction_score := 100, sentiment := "neutral", timeframe := "unspecified",
    is_disruption_focused := false, weighted_score := 10, mention_date := "2026-02-10" }

/-- The aggregated row for "AAA". -/
def c4topA : TopRow :=
  { ticker := "AAA", total_score := 40, podcast_count := 1, newsletter_count := 0,
    unique_sources := 1, avg_conviction := 0 }

/-- The aggregated row for "BBB". -/
def c4topB : TopRow :=
  { ticker := "BBB", total_score := 40, podcast_count := 0, newsletter_count := 2,
    unique_sources := 2, avg_conviction := 100 }

/-- The persisted snapshot row for "AAA" (rank 1, one source). -/
def c4dA : DailyScoreRow :=
  { ticker := "AAA", date := "2026-02-10", total_score := 40, podcast_mentions := 1,
    newsletter_mentions := 0, disruption_signals := 0, unique_sources := 1,
    conviction_level := "medium", contrarian_signal := "neutral",
    timeframe := "unspecified", rank := 1 }

/-- The persisted snapshot row for "BBB" (rank 2, two sources). -/
def c4dB : DailyScoreRow :=
  { ticker := "BBB", date := "2026-02-10", total_score := 40, podcast_mentions := 0,
    newsletter_mentions := 2, disruption_signals := 0, unique_sources := 2,
    conviction_level := "high", contrarian_signal := "neutral",
    timeframe := "unspecified", rank := 2 }

/-- The tie-break property claim C4 asserts of every persisted snapshot. -/
def rankTieBreakBySources (l : List DailyScoreRow) : Prop :=
  ∀ a ∈ l, ∀ b ∈ l, a.total_score = b.total_score → a.rank < b.rank →
    b.unique_sources ≤ a.unique_sources

/-- A post-promotion state with nine active insights on distinct dates
(claim C2's Scenario C shape). -/
def c2_state : List InsightRow :=
  [{ id := 1, title := "t1", source_date := "2026-01-01", display_on_main := true },
   { id := 2, title := "t2", source_date := "2026-01-02", display_on_main := true },
   { id := 3, title := "t3", source_date := "2026-01-03", display_on_main := true },
   { id := 4, title := "t4", source_date := "2026-01-04", display_on_main := true },
   { id := 5, title := "t5", source_date := "2026-01-05", display_on_main := true },
   { id := 6, title := "t6", source_date := "2026-01-06", display_on_main := true },
   { id := 7, title := "t7", source_date := "2026-01-07", display_on_main := true },
   { id := 8, title := "t8", source_date := "2026-01-08", display_on_main := true },
   { id := 9, title := "t9", source_date := "2026-01-09", display_on_main := true }]

/-! ## Helper lemmas -/

theorem newsletter_ne_podcast : ("newsletter" : String) ≠ "podcast" := by decide

theorem base_weight_pos (m : TickerMention) : 0 < mention_base m * type_weight m := by
  have h1 : 0 < mention_base m := by unfold mention_base; split_ifs <;> norm_num
  have h2 : 0 < type_weight m := by unfold type_weight; split_ifs <;> norm_num
  exact mul_pos h1 h2

/-! ## Claim C1 -/

/-- Claim C1, as stated, is false: the newsletter type multiplier is not
0.5 plus 0.25 per detected disruption keyword.  The subject
`c1_subject` contains exactly two disruption keywords, and the mention
built for it is stored with type multiplier 1.5, not the claimed
0.5 + 2 × 0.25 = 1.0. -/
theorem c1_counterexample :
    detected_keyword_count c1_subject "" = 2 ∧
    type_weight (newsletter_mention "NVDA" "TestSender" c1_subject "") = 3/2 ∧
    claimed_newsletter_type_weight (detected_keyword_count c1_subject "") = 1 ∧
    type_weight (newsletter_mention "NVDA" "TestSender" c1_subject "") ≠
      claimed_newsletter_type_weight (detected_keyword_count c1_subject "") := by
  have hc : detected_keyword_count c1_subject "" = 2 := by decide
  have hd : is_disruption_text c1_subject "" = true := by decide
  have hw : type_weight (newsletter_mention "NVDA" "TestSender" c1_subject "") = 3/2 := by
    simp [type_weight, newsletter_mention, hd, newsletter_ne_podcast]
  have hcl : claimed_newsletter_type_weight 2 = 1 := by
    norm_num [claimed_newsletter_type_weight]
  refine ⟨hc, hw, by rw [hc]; exact hcl, by rw [hc, hcl, hw]; norm_num⟩

/-- Claim C1 (amended): the newsletter type multiplier is binary, 1.5 as
soon as at least one disruption keyword is detected in the mention's
source text (so also for exactly two keywords) and 0.5 when none is. -/
theorem c1_newsletter_weight_binary (t s subj prev : String) :
    (1 ≤ detected_keyword_count subj prev →
      type_weight (newsletter_mention t s subj prev) = 3/2) ∧
    (detected_keyword_count subj prev = 0 →
      type_weight (newsletter_mention t s subj prev) = 1/2) := by
  constructor
  · intro h
    unfold detected_keyword_count at h
    have hd : is_disruption_text subj prev = true := by
      unfold is_disruption_text
      rw [List.any_eq_true]
      simpa using List.countP_pos_iff.mp (Nat.lt_of_lt_of_le Nat.zero_lt_one h)
    simp [type_weight, newsletter_mention, hd, newsletter_ne_podcast]
  · intro h
    unfold detected_keyword_count at h
    have hall := List.countP_eq_zero.mp h
    have hd : is_disruption_text subj prev = false := by
      unfold is_disruption_text
      rw [List.any_eq_false]
      intro kw hkw
      simpa using hall kw hkw
    simp [type_weight, newsletter_mention, hd, newsletter_ne_podcast]

/-- Witness for C1: the two-keyword subject triggers the 1.5 multiplier. -/
theorem c1_witness :
    1 ≤ detected_keyword_count c1_subject "" ∧
    type_weight (newsletter_mention "NVDA" "TestSender" c1_subject "") = 3/2 :=
  ⟨by decide, (c1_newsletter_weight_binary "NVDA" "TestSender" c1_subject "").1 (by decide)⟩

/-! ## Claim C3 -/

/-- Claim C3's scenario is false: after storing
"Fed Signals Pivot — Special Edition" (no guid), the later item
"Fed Signals Pivot" from the same source is NOT detected as a duplicate —
the prefix rule compares the lowercased 50-character substrings of the two
titles for equality, and they differ. -/
theorem c3_counterexample :
    episode_exists_in_db fedDB "SomePod" "Fed Signals Pivot" none = false := by
  decide

/-- Claim C3 (amended): the duplicate check returns true iff the guid
rule, the exact (source, title) rule or the 50-character rule fires, where
the last requires the lowercased first-50-character substrings of the two
titles to be EQUAL (so "Fed Signals Pivot" after
"Fed Signals Pivot — Special Edition" is not a duplicate, while two long
titles sharing their first 50 characters are). -/
theorem c3_dedup_rules (db : List EpisodeRow) (pn et : String) (g : Option String) :
    (episode_exists_in_db db pn et g = true ↔
      guidRule db g ∨ exactRule db pn et ∨ sub50Rule db pn et) ∧
    episode_exists_in_db fedDB "SomePod" "Fed Signals Pivot" none = false ∧
    episode_exists_in_db longDB "SomePod" longTitle2 none = true := by
  refine ⟨?_, by decide, by decide⟩
  simp only [episode_exists_in_db, guidRule, exactRule, sub50Rule, List.any_eq_true,
    Bool.or_eq_true, Bool.and_eq_true, beq_iff_eq]
  exact or_assoc

/-! ## Claim C4 -/

theorem c4_top_eval : get_top_tickers "2026-02-10" 30 c4_mentions = [c4topA, c4topB] := by
  have hrows : rowsFor "2026-02-10" c4_mentions = [c4rA, c4rB1, c4rB2] := by
    have hms : c4_mentions = [c4rA, c4rB1, c4rB2] := by
      simp [c4_mentions, mentionRow, c4mA, c4mB1, c4mB2, c4rA, c4rB1, c4rB2]
      norm_num [weighted_score, mention_base, type_weight, conviction_mult,
        newsletter_ne_podcast]
    simp [rowsFor, hms, c4rA, c4rB1, c4rB2]
  have htA : topRowFor [c4rA, c4rB1, c4rB2] "AAA" = c4topA := by
    simp [topRowFor, tickerRows, firstOccurrences, c4rA, c4rB1, c4rB2, c4topA]
  have htB : topRowFor [c4rA, c4rB1, c4rB2] "BBB" = c4topB := by
    simp [topRowFor, tickerRows, firstOccurrences, c4rA, c4rB1, c4rB2, c4topB]
    norm_num
  have hda : dayTickers [c4rA, c4rB1, c4rB2] = ["AAA", "BBB"] := by
    simp [dayTickers, firstOccurrences, c4rA, c4rB1, c4rB2,
      (by decide : tickerAsc "AAA" "BBB")]
  have hOrd : scoreDesc c4topA c4topB := by
    norm_num [scoreDesc, c4topA, c4topB]
  simp only [get_top_tickers, hrows]
  simp only [hda, List.map_cons, List.map_nil, htA, htB]
  simp only [List.insertionSort, List.orderedInsert]
  rw [if_pos hOrd]
  rfl

theorem c4_scores_eval : computeScores "2026-02-10" c4_mentions = [c4dA, c4dB] := by
  have hrows : rowsFor "2026-02-10" c4_mentions = [c4rA, c4rB1, c4rB2] := by
    have hms : c4_mentions = [c4rA, c4rB1, c4rB2] := by
      simp [c4_mentions, mentionRow, c4mA, c4mB1, c4mB2, c4rA, c4rB1, c4rB2]
      norm_num [weighted_score, mention_base, type_weight, conviction_mult,
        newsletter_ne_podcast]
    simp [rowsFor, hms, c4rA, c4rB1, c4rB2]
  simp only [computeScores, c4_top_eval, hrows, pyEnumerate, List.map_cons, List.map_nil]
  have hA : mkScoreRow "2026-02-10" [c4rA, c4rB1, c4rB2] 1 c4topA = c4dA := by
    simp [mkScoreRow, c4topA, c4dA, tickerRows, c4rA, c4rB1, c4rB2, contrarianSignal,
      timeframeOf, timeframePairs, firstOccurrences, firstMaxByCount]
    norm_num [effectiveAvg, convictionLevel]
  have hB : mkScoreRow "2026-02-10" [c4rA, c4rB1, c4rB2] 2 c4topB = c4dB := by
    simp [mkScoreRow, c4topB, c4dB, tickerRows, c4rA, c4rB1, c4rB2, contrarianSignal,
      timeframeOf, timeframePairs, firstOccurrences, firstMaxByCount]
    norm_num [effectiveAvg, convictionLevel]
  rw [hA, hB]

/-- Claim C4, as stated, is false: in the snapshot computed for the
`c4_mentions` store, tickers "AAA" and "BBB" tie at total_score 40, but
"AAA" (1 distinct source) is ranked 1 ahead of "BBB" (2 distinct
sources) — ties are not broken by unique_source_count descending. -/
theorem c4_counterexample :
    ¬ rankTieBreakBySources (computeScores "2026-02-10" c4_mentions) := by
  intro hP
  rw [c4_scores_eval] at hP
  have h2 := hP c4dA (by simp) c4dB (by simp)
    (by norm_num [c4dA, c4dB]) (by norm_num [c4dA, c4dB])
  norm_num [c4dA, c4dB] at h2

/-! ## Claim C5 -/

/-- Claim C5, as stated, is false: `add_ticker_mention` does not clamp an
out-of-range conviction before computing the weighted score.  For a
newsletter mention with conviction 200 the stored weighted score is
10 × 0.5 × 3 = 15, while the claimed clamped computation gives
10 × 0.5 × 2 = 10. -/
theorem c5_counterexample :
    weighted_score c5_m200 = 15 ∧ weighted_score_clamped c5_m200 = 10 ∧
    weighted_score c5_m200 ≠ weighted_score_clamped c5_m200 := by
  norm_num [weighted_score, weighted_score_clamped, mention_base, type_weight,
    conviction_mult, clampConviction, c5_m200, newsletter_ne_podcast]

/-- Claim C5 (amended): a mention with conviction outside -100..100 is
stored anyway (the insert always appends one row, with the raw conviction
value), but the conviction is NOT clamped: the stored weighted score is
computed from the raw value, and differs strictly from the clamped
computation on every out-of-range conviction. -/
theorem c5_store_without_clamping (tbl : List MentionRow) (m : TickerMention) (d : String) :
    (add_ticker_mention tbl m d).length = tbl.length + 1 ∧
    (mentionRow m d).conviction_score = m.conviction_score ∧
    (mentionRow m d).weighted_score = weighted_score m ∧
    (100 < m.conviction_score → weighted_score_clamped m < weighted_score m) ∧
    (m.conviction_score < -100 → weighted_score m < weighted_score_clamped m) := by
  refine ⟨by simp [add_ticker_mention], rfl, rfl, ?_, ?_⟩
  · intro h
    have hcl : clampConviction m.conviction_score = 100 := by
      unfold clampConviction; omega
    have hcast : (100:ℚ) < (m.conviction_score:ℚ) := by exact_mod_cast h
    unfold weighted_score weighted_score_clamped conviction_mult
    rw [hcl]
    apply mul_lt_mul_of_pos_left _ (base_weight_pos m)
    push_cast
    linarith
  · intro h
    have hcl : clampConviction m.conviction_score = -100 := by
      unfold clampConviction; omega
    have hcast : (m.conviction_score:ℚ) < -100 := by exact_mod_cast h
    unfold weighted_score weighted_score_clamped conviction_mult
    rw [hcl]
    apply mul_lt_mul_of_pos_left _ (base_weight_pos m)
    push_cast
    linarith

/-- Witness for C5: the conviction-200 and conviction-(-200) mentions. -/
theorem c5_witness :
    weighted_score_clamped c5_m200 < weighted_score c5_m200 ∧
    weighted_score c5_mNeg200 < weighted_score_clamped c5_mNeg200 :=
  ⟨(c5_store_without_clamping [] c5_m200 "2026-02-10").2.2.2.1 (by decide),
   (c5_store_without_clamping [] c5_mNeg200 "2026-02-10").2.2.2.2 (by decide)⟩

/-! ## Claim C7 -/

/-- Claim C7: the weighted score is base × type_weight × (1 +
conviction/100) with base 20 for podcast and 10 otherwise and type_weight
2.0 for podcast; the Scenario A mentions score 72, 64 and 7.5, and the
aggregated NVDA total for the day is 143.5. -/
theorem c7_weighted_formula_and_scenario :
    (∀ m : TickerMention,
      weighted_score m =
        (if m.source_type = "podcast" then (20:ℚ) else 10) * type_weight m *
          (1 + (m.conviction_score : ℚ) / 100) ∧
      (m.source_type = "podcast" → type_weight m = 2)) ∧
    weighted_score scA1 = 72 ∧ weighted_score scA2 = 64 ∧ weighted_score scA3 = 15/2 ∧
    (get_top_tickers "2026-02-10" 30 scenarioA).map (fun r => (r.ticker, r.total_score)) =
      [("NVDA", 287/2)] := by
  refine ⟨fun m => ⟨rfl, fun h => by simp [type_weight, h]⟩, ?_, ?_, ?_, ?_⟩
  · norm_num [weighted_score, mention_base, type_weight, conviction_mult, scA1]
  · norm_num [weighted_score, mention_base, type_weight, conviction_mult, scA2]
  · norm_num [weighted_score, mention_base, type_weight, conviction_mult, scA3,
      newsletter_ne_podcast]
  · norm_num [get_top_tickers, rowsFor, dayTickers, firstOccurrences, tickerRows,
      topRowFor, scenarioA, add_ticker_mention, mentionRow, scA1, scA2, scA3,
      weighted_score, mention_base, type_weight, conviction_mult, newsletter_ne_podcast,
      List.insertionSort, List.orderedInsert]

/-! ## Claim C8 -/

/-- Claim C8, as stated, is false at the boundary conviction -100: a
podcast and a newsletter mention with conviction -100 and equal disruption
flag both have weighted score 0, so the podcast score is not strictly
greater. -/
theorem c8_counterexample :
    weighted_score c8_pod = 0 ∧ weighted_score c8_news = 0 ∧
    ¬ (weighted_score c8_news < weighted_score c8_pod) := by
  norm_num [weighted_score, mention_base, type_weight, conviction_mult,
    c8_pod, c8_news, newsletter_ne_podcast]

/-- Claim C8 (amended): the weighted score is monotone in
conviction_score with source_type and disruption flag held fixed, and the
podcast score strictly dominates the newsletter score at equal conviction
and equal disruption flag whenever the conviction is strictly above -100;
at conviction -100 both scores are exactly 0. -/
theorem c8_monotone_and_podcast_dominates :
    (∀ (m : TickerMention) (c1 c2 : Int), c1 ≤ c2 →
      weighted_score { m with conviction_score := c1 } ≤
        weighted_score { m with conviction_score := c2 }) ∧
    (∀ p n : TickerMention, p.source_type = "podcast" → n.source_type = "newsletter" →
      p.conviction_score = n.conviction_score →
      p.is_disruption_focused = n.is_disruption_focused →
      -100 < p.conviction_score → weighted_score n < weighted_score p) ∧
    (∀ p n : TickerMention, p.source_type = "podcast" → n.source_type = "newsletter" →
      p.conviction_score = -100 → n.conviction_score = -100 →
      weighted_score p = 0 ∧ weighted_score n = 0) := by
  refine ⟨?_, ?_, ?_⟩
  · intro m c1 c2 h
    have hcast : (c1:ℚ) ≤ (c2:ℚ) := by exact_mod_cast h
    have hBW : mention_base { m with conviction_score := c1 } *
        type_weight { m with conviction_score := c1 } =
        mention_base { m with conviction_score := c2 } *
        type_weight { m with conviction_score := c2 } := rfl
    unfold weighted_score conviction_mult
    rw [hBW]
    apply mul_le_mul_of_nonneg_left _ (le_of_lt (base_weight_pos _))
    simp only
    linarith
  · intro p n hp hn hc _ hgt
    have hk : (0:ℚ) < 1 + (p.conviction_score:ℚ) / 100 := by
      have : (-100:ℚ) < (p.conviction_score:ℚ) := by exact_mod_cast hgt
      linarith
    have hwp : weighted_score p = 40 * (1 + (p.conviction_score:ℚ) / 100) := by
      simp only [weighted_score, mention_base, type_weight, conviction_mult, hp,
        eq_self_iff_true, if_true]
      ring
    have hwn : weighted_score n ≤ 15 * (1 + (p.conviction_score:ℚ) / 100) := by
      cases hdis : n.is_disruption_focused <;>
        simp [weighted_score, mention_base, type_weight, conviction_mult, hn, hdis,
          newsletter_ne_podcast, ← hc] <;>
        nlinarith [hk]
    calc weighted_score n ≤ 15 * (1 + (p.conviction_score:ℚ) / 100) := hwn
      _ < 40 * (1 + (p.conviction_score:ℚ) / 100) := by nlinarith [hk]
      _ = weighted_score p := hwp.symm
  · intro p n hp hn h100p h100n
    refine ⟨?_, ?_⟩ <;>
      norm_num [weighted_score, mention_base, type_weight, conviction_mult, hp, hn,
        h100p, h100n, newsletter_ne_podcast]

/-- Witness for C8: concrete instantiations of all three parts. -/
theorem c8_witness :
    weighted_score { c8_news with conviction_score := 0 } ≤
      weighted_score { c8_news with conviction_score := 5 } ∧
    weighted_score { c8_news with conviction_score := 50 } <
      weighted_score { c8_pod with conviction_score := 50 } ∧
    (weighted_score c8_pod = 0 ∧ weighted_score c8_news = 0) :=
  ⟨c8_monotone_and_podcast_dominates.1 c8_news 0 5 (by decide),
   c8_monotone_and_podcast_dominates.2.1 _ _ rfl rfl rfl rfl (by decide),
   c8_monotone_and_podcast_dominates.2.2 c8_pod c8_news rfl rfl rfl rfl⟩

/-! ## Claim C9 -/

/-- Claim C9, as stated, is false: a pending term with relevance 85 but
only 1 distinct source is flagged for manual review by the code, while
the claim's rule (review only for relevance between 40 and 70, otherwise
discard) would discard it. -/
theorem c9_counterexample :
    analyze_term_quality 85 1 5 = "manual_review" ∧
    claimed_term_decision 85 1 5 = "skip" ∧
    analyze_term_quality 85 1 5 ≠ claimed_term_decision 85 1 5 := by
  refine ⟨by decide, by decide, by decide⟩

/-- Claim C9 (amended): a pending term is auto-promoted iff relevance ≥ 70
and sources ≥ 2 and mentions ≥ 3; it is flagged for manual review iff it
is not auto-promoted and relevance ≥ 40 (also above 70); otherwise
(relevance < 40 and not promoted) it is skipped. -/
theorem c9_curation_characterization (r s m : Int) :
    (analyze_term_quality r s m = "auto_promote" ↔ 70 ≤ r ∧ 2 ≤ s ∧ 3 ≤ m) ∧
    (analyze_term_quality r s m = "manual_review" ↔
      ¬(70 ≤ r ∧ 2 ≤ s ∧ 3 ≤ m) ∧ 40 ≤ r) ∧
    (analyze_term_quality r s m = "skip" ↔ ¬(70 ≤ r ∧ 2 ≤ s ∧ 3 ≤ m) ∧ r < 40) := by
  unfold analyze_term_quality
  split_ifs with h1 h2
  · exact ⟨iff_of_true rfl h1,
      iff_of_false (by decide) (fun hh => hh.1 h1),
      iff_of_false (by decide) (fun hh => hh.1 h1)⟩
  · exact ⟨iff_of_false (by decide) h1,
      iff_of_true rfl ⟨h1, h2⟩,
      iff_of_false (by decide) (fun hh => by omega)⟩
  · exact ⟨iff_of_false (by decide) h1,
      iff_of_false (by decide) (fun hh => h2 hh.2),
      iff_of_true rfl ⟨h1, by omega⟩⟩

/-! ## Claim C10 -/

/-- Claim C10: `archive_item` with an item_type other than "insight",
"definition" or "overton" matches no UPDATE branch and leaves the
database unchanged, for every item id and reason. -/
theorem c10_archive_unknown_type_noop (st : DBState) (t : String) (item_id : Nat)
    (reason : Option String) (today : String)
    (h : t ∉ (["insight", "definition", "overton"] : List String)) :
    archive_item st t item_id reason today = st := by
  simp only [List.mem_cons, List.mem_singleton, not_or] at h
  obtain ⟨h1, h2, h3⟩ := h
  simp [archive_item, h1, h2, h3]

/-- Witness for C10: archiving an "episode" changes nothing. -/
theorem c10_witness :
    ("episode" : String) ∉ (["insight", "definition", "overton"] : List String) ∧
    archive_item ⟨[], [], []⟩ "episode" 1 none "2026-02-10" = ⟨[], [], []⟩ :=
  ⟨by decide, c10_archive_unknown_type_noop ⟨[], [], []⟩ "episode" 1 none "2026-02-10"
    (by decide)⟩

/-! ## Claim C6 -/

theorem save_decompose (rs : List DailyScoreRow) :
    ∀ tbl, save_daily_scores tbl rs =
      tbl.filter (fun x => rs.all (fun r => !sameKey x r)) ++ save_daily_scores [] rs := by
  induction rs with
  | nil => intro tbl; simp [save_daily_scores]
  | cons r rs ih =>
    intro tbl
    rw [show save_daily_scores tbl (r :: rs) = save_daily_scores (upsertScore tbl r) rs from rfl,
      ih (upsertScore tbl r),
      show save_daily_scores [] (r :: rs) = save_daily_scores (upsertScore [] r) rs from rfl,
      ih (upsertScore [] r)]
    show ((tbl.filter fun x => !(x.ticker == r.ticker && x.date == r.date)) ++ [r]).filter _ ++ _ = _
    simp only [List.filter_append, List.filter_filter, List.all_cons, List.append_assoc, sameKey]
    simp [upsertScore, Bool.and_comm]

theorem mem_save_of_mem (x : DailyScoreRow) (rs : List DailyScoreRow) :
    ∀ tbl, x ∈ save_daily_scores tbl rs → x ∈ tbl ∨ x ∈ rs := by
  induction rs with
  | nil => intro tbl h; exact Or.inl h
  | cons r rs ih =>
    intro tbl h
    rcases ih (upsertScore tbl r) h with h1 | h2
    · simp only [upsertScore, List.mem_append, List.mem_singleton] at h1
      rcases h1 with h1 | h1
      · exact Or.inl (List.mem_of_mem_filter h1)
      · exact Or.inr (h1 ▸ List.mem_cons_self r rs)
    · exact Or.inr (List.mem_cons_of_mem r h2)

/-- Claim C6: running the daily aggregation twice for the same date with
the same mention store leaves daily_scores exactly as after the first
run (the upsert replaces each (ticker, date) row with identical content). -/
theorem c6_aggregation_idempotent (d : String) (ms : List MentionRow)
    (tbl : List DailyScoreRow) :
    run_aggregation d ms (run_aggregation d ms tbl) = run_aggregation d ms tbl := by
  unfold run_aggregation
  set rs := computeScores d ms with hrs
  rw [save_decompose rs (save_daily_scores tbl rs), save_decompose rs tbl]
  have hcore : (save_daily_scores [] rs).filter
      (fun x => rs.all (fun r => !sameKey x r)) = [] := by
    rw [List.filter_eq_nil_iff]
    intro x hx
    rcases mem_save_of_mem x rs [] hx with h | h
    · simp at h
    · simp only [List.all_eq_true, Bool.not_eq_true']
      intro hall
      have := hall x h
      simp [sameKey] at this
  rw [List.filter_append, List.filter_filter, hcore]
  simp only [List.append_nil]
  congr 1
  apply List.filter_congr
  intro x _
  simp

/-! ## Claim C4 (amended ranking theorem) -/

instance : IsTotal TopRow scoreDesc :=
  ⟨fun a b => le_total b.total_score a.total_score⟩

instance : IsTrans TopRow scoreDesc :=
  ⟨fun _ _ _ h1 h2 => le_trans h2 h1⟩

theorem pyEnumerate_length (start : Nat) (l : List TopRow) :
    (pyEnumerate start l).length = l.length := by
  induction l generalizing start with
  | nil => rfl
  | cons r rest ih => simp [pyEnumerate, ih]

theorem pyEnumerate_map_fst (start : Nat) (l : List TopRow) :
    (pyEnumerate start l).map (fun p => p.1) = List.range' start l.length := by
  induction l generalizing start with
  | nil => rfl
  | cons r rest ih =>
    simp [pyEnumerate, List.range'_succ, ih]

theorem pyEnumerate_snd_mem {p : Nat × TopRow} {start : Nat} {l : List TopRow} :
    p ∈ pyEnumerate start l → p.2 ∈ l := by
  induction l generalizing start with
  | nil => intro h; simp [pyEnumerate] at h
  | cons r rest ih =>
    intro h
    rcases (List.mem_cons).mp h with h | h
    · subst h; exact List.mem_cons_self _ _
    · exact List.mem_cons_of_mem _ (ih h)

theorem pyEnumerate_pairwise {r : TopRow → TopRow → Prop} (start : Nat) {l : List TopRow}
    (h : l.Pairwise r) :
    (pyEnumerate start l).Pairwise (fun p q => r p.2 q.2) := by
  induction l generalizing start with
  | nil => exact List.Pairwise.nil
  | cons a rest ih =>
    rcases List.pairwise_cons.mp h with ⟨ha, ht⟩
    refine List.pairwise_cons.mpr ⟨?_, ih _ ht⟩
    intro q hq
    exact ha q.2 (pyEnumerate_snd_mem hq)

/-- Claim C4 (amended): in every computed snapshot, rank is the 1-based
position after sorting by total_score descending — the rank column is
exactly 1, 2, … n and total_score is non-increasing along it; ties are
NOT broken by unique_source_count (see the counterexample). -/
theorem c4_rank_is_score_order (d : String) (ms : List MentionRow) :
    (computeScores d ms).map (fun r => r.rank) =
      List.range' 1 (computeScores d ms).length ∧
    (computeScores d ms).Sorted (fun a b => b.total_score ≤ a.total_score) := by
  constructor
  · unfold computeScores
    rw [List.map_map, List.length_map, pyEnumerate_length]
    exact pyEnumerate_map_fst 1 _
  · unfold computeScores
    have hsorted : (get_top_tickers d 30 ms).Pairwise scoreDesc := by
      unfold get_top_tickers
      exact (List.sorted_insertionSort scoreDesc _).sublist (List.take_sublist _ _)
    exact (pyEnumerate_pairwise 1 hsorted).map _ (fun a b h => h)

/-! ## Claim C2 -/

theorem charListLt_irrefl : ∀ l : List Char, charListLt l l = false
  | [] => rfl
  | a :: as => by simp [charListLt, charListLt_irrefl as]

theorem charListLt_trans : ∀ a b c : List Char,
    charListLt a b = true → charListLt b c = true → charListLt a c = true := by
  intro a
  induction a with
  | nil =>
    intro b c hab hbc
    cases c with
    | nil => cases b <;> simp [charListLt] at hab hbc
    | cons z zs => simp [charListLt]
  | cons x xs ih =>
    intro b c hab hbc
    cases b with
    | nil => simp [charListLt] at hab
    | cons y ys =>
      cases c with
      | nil => simp [charListLt] at hbc
      | cons z zs =>
        simp only [charListLt, Bool.or_eq_true, Bool.and_eq_true, decide_eq_true_eq]
          at hab hbc ⊢
        rcases hab with h1 | ⟨he1, h1⟩
        · rcases hbc with h2 | ⟨he2, h2⟩
          · exact Or.inl (Nat.lt_trans h1 h2)
          · exact Or.inl (by omega)
        · rcases hbc with h2 | ⟨he2, h2⟩
          · exact Or.inl (by omega)
          · exact Or.inr ⟨by omega, ih ys zs h1 h2⟩

theorem charListLt_eq_of_not : ∀ a b : List Char,
    charListLt a b = false → charListLt b a = false → a = b := by
  intro a
  induction a with
  | nil =>
    intro b h1 h2
    cases b with
    | nil => rfl
    | cons y ys => simp [charListLt] at h1
  | cons x xs ih =>
    intro b h1 h2
    cases b with
    | nil => simp [charListLt] at h2
    | cons y ys =>
      simp only [charListLt, Bool.or_eq_false_iff, Bool.and_eq_false_iff,
        decide_eq_false_iff_not] at h1 h2
      have hxy : x.toNat = y.toNat := by omega
      have hx : x = y := by
        have hc := congrArg Char.ofNat hxy
        rwa [Char.ofNat_toNat, Char.ofNat_toNat] at hc
      subst hx
      have ht1 : charListLt xs ys = false := by
        rcases h1.2 with h | h
        · omega
        · exact h
      have ht2 : charListLt ys xs = false := by
        rcases h2.2 with h | h
        · omega
        · exact h
      rw [ih ys ht1 ht2]

theorem textLt_irrefl (s : String) : textLt s s = false := charListLt_irrefl s.data

theorem textLt_trans {a b c : String} (h1 : textLt a b = true) (h2 : textLt b c = true) :
    textLt a c = true := charListLt_trans a.data b.data c.data h1 h2

theorem textLt_eq_of_not {a b : String} (h1 : textLt a b = false)
    (h2 : textLt b a = false) : a = b := by
  have hd := charListLt_eq_of_not a.data b.data h1 h2
  cases a
  cases b
  exact congrArg String.mk hd

theorem insightAfter_iff {a b : InsightRow} : insightAfter a b = true ↔ keyLt b a := by
  unfold insightAfter keyLt
  simp only [Bool.or_eq_true, Bool.and_eq_true, decide_eq_true_eq, beq_iff_eq]
  constructor
  · rintro (h | ⟨h1, h2⟩)
    · exact Or.inl h
    · exact Or.inr ⟨h1.symm, h2⟩
  · rintro (h | ⟨h1, h2⟩)
    · exact Or.inl h
    · exact Or.inr ⟨h1.symm, h2⟩

theorem insightOrder_iff {a b : InsightRow} : insightOrder a b ↔ ¬ keyLt a b := by
  unfold insightOrder
  rw [← insightAfter_iff]
  simp

theorem keyLt_trans {a b c : InsightRow} (h1 : keyLt a b) (h2 : keyLt b c) : keyLt a c := by
  rcases h1 with h1 | ⟨e1, l1⟩
  · rcases h2 with h2 | ⟨e2, l2⟩
    · exact Or.inl (textLt_trans h1 h2)
    · exact Or.inl (e2 ▸ h1)
  · rcases h2 with h2 | ⟨e2, l2⟩
    · exact Or.inl (e1 ▸ h2)
    · exact Or.inr ⟨e1.trans e2, Nat.lt_trans l1 l2⟩

theorem keyLt_irrefl (a : InsightRow) : ¬ keyLt a a := by
  rintro (h | ⟨_, h⟩)
  · rw [textLt_irrefl] at h
    exact Bool.false_ne_true h
  · omega

theorem keyLt_trichot (a b : InsightRow) :
    keyLt a b ∨ (a.source_date = b.source_date ∧ a.id = b.id) ∨ keyLt b a := by
  by_cases h1 : textLt a.source_date b.source_date = true
  · exact Or.inl (Or.inl h1)
  by_cases h2 : textLt b.source_date a.source_date = true
  · exact Or.inr (Or.inr (Or.inl h2))
  have he : a.source_date = b.source_date :=
    textLt_eq_of_not (by simpa using h1) (by simpa using h2)
  rcases Nat.lt_trichotomy a.id b.id with h | h | h
  · exact Or.inl (Or.inr ⟨he, h⟩)
  · exact Or.inr (Or.inl ⟨he, h⟩)
  · exact Or.inr (Or.inr (Or.inr ⟨he.symm, h⟩))

instance : IsTotal InsightRow insightOrder := by
  refine ⟨fun a b => ?_⟩
  rw [insightOrder_iff, insightOrder_iff]
  by_cases h : keyLt a b
  · exact Or.inr (fun h2 => keyLt_irrefl a (keyLt_trans h h2))
  · exact Or.inl h

instance : IsTrans InsightRow insightOrder := by
  refine ⟨fun a b c h1 h2 => ?_⟩
  rw [insightOrder_iff] at h1 h2 ⊢
  intro hac
  rcases keyLt_trichot a b with h | ⟨e1, e2⟩ | h
  · exact h1 h
  · refine h2 ?_
    rcases hac with h | ⟨h3, h4⟩
    · exact Or.inl (e1 ▸ h)
    · exact Or.inr ⟨e1 ▸ h3, e2 ▸ h4⟩
  · exact h2 (keyLt_trans h hac)


theorem insightAfter_self (x : InsightRow) : insightAfter x x = false := by
  by_contra h
  rw [Bool.not_eq_false] at h
  exact keyLt_irrefl x (insightAfter_iff.mp h)

theorem contains_iff_mem {l : List Nat} {a : Nat} : l.contains a = true ↔ a ∈ l :=
  List.elem_iff

theorem mem_drop_sorted_iff :
    ∀ (L : List InsightRow) (k : Nat) (x : InsightRow),
      L.Sorted insightOrder → (L.map (fun i => i.id)).Nodup → x ∈ L →
      (x ∈ L.drop k ↔ k ≤ L.countP (fun j => insightAfter j x)) := by
  intro L
  induction L with
  | nil => intro k x _ _ hx; simp at hx
  | cons a t ih =>
    intro k x hs hnd hx
    rcases List.pairwise_cons.mp hs with ⟨ha, ht⟩
    simp only [List.map_cons, List.nodup_cons] at hnd
    obtain ⟨haid, hndt⟩ := hnd
    match k with
    | 0 =>
      simp only [List.drop_zero]
      exact iff_of_true hx (Nat.zero_le _)
    | Nat.succ k =>
      rw [List.drop_succ_cons, List.countP_cons]
      rcases List.mem_cons.mp hx with rfl | hxt
      · have h0 : t.countP (fun j => insightAfter j x) = 0 :=
          List.countP_eq_zero.mpr (fun j hj => by
            have hj2 := ha j hj
            unfold insightOrder at hj2
            simp [hj2])
        constructor
        · intro hdrop
          exact absurd (List.mem_map.mpr ⟨x, List.mem_of_mem_drop hdrop, rfl⟩) haid
        · intro hk
          rw [h0] at hk
          simp [insightAfter_self] at hk
      · have haidne : a.id ≠ x.id := fun he =>
          haid (List.mem_map.mpr ⟨x, hxt, he.symm⟩)
        have hax : insightAfter a x = true := by
          have hno := ha x hxt
          rw [insightOrder_iff] at hno
          rw [insightAfter_iff]
          rcases keyLt_trichot a x with h | ⟨e1, e2⟩ | h
          · exact absurd h hno
          · exact absurd e2 haidne
          · exact h
        simp only [hax, if_pos]
        rw [ih k x ht hndt hxt]
        omega


/-- Claim C2: after the auto-archive step of the insight promotion, at
most 8 insights are displayed on main; the step maps each insight with at
least 8 strictly-more-recent active insights to its archived version
(display_on_main := false, archived_reason "Auto-archived: keep 8 most
recent on main") and leaves every other insight unchanged.  Hypotheses:
ids are unique, displayed rows are not archived, and active insights have
pairwise distinct source dates (so "oldest-by-source-date" is
unambiguous). -/
theorem c2_auto_archive_caps_at_8 (today : String) (s : List InsightRow)
    (hids : (s.map (fun i => i.id)).Nodup)
    (hcons : ∀ i ∈ s, i.display_on_main = true → i.archived_date = none)
    (hdates : ∀ i ∈ s, ∀ j ∈ s, isActive i = true → isActive j = true → i ≠ j →
      i.source_date ≠ j.source_date) :
    ((auto_archive_step today s).filter (fun i => i.display_on_main)).length ≤ 8 ∧
    auto_archive_step today s = s.map (fun i =>
      if i.display_on_main = true ∧ 8 ≤ newerActiveCount s i then archiveInsight today i
      else i) := by
  have hAs : ∀ x ∈ activeInsights s, x ∈ s := fun x hx => (List.mem_filter.mp hx).1
  have hAact : ∀ x ∈ activeInsights s, isActive x = true := fun x hx =>
    (List.mem_filter.mp hx).2
  have hperm : List.Perm ((activeInsights s).insertionSort insightOrder)
      (activeInsights s) :=
    List.perm_insertionSort _ _
  have hsorted : ((activeInsights s).insertionSort insightOrder).Sorted insightOrder :=
    List.sorted_insertionSort _ _
  have hndA : ((activeInsights s).map (fun i => i.id)).Nodup :=
    ((List.filter_sublist s).map (fun i => i.id)).nodup hids
  have hndsorted :
      (((activeInsights s).insertionSort insightOrder).map (fun i => i.id)).Nodup :=
    ((hperm.map (fun i => i.id)).nodup_iff).mpr hndA
  have hinj : ∀ a ∈ s, ∀ b ∈ s, a.id = b.id → a = b := fun a ha b hb he =>
    List.inj_on_of_nodup_map hids ha hb he
  have hconv : ∀ x ∈ s, isActive x = true →
      (activeInsights s).countP (fun j => insightAfter j x) = newerActiveCount s x := by
    intro x hxs hxact
    unfold newerActiveCount
    apply List.countP_congr
    intro j hj
    by_cases hjx : j = x
    · subst hjx
      simp [insightAfter_self, textLt_irrefl]
    · have hne : j.source_date ≠ x.source_date :=
        hdates j (hAs j hj) x hxs (hAact j hj) hxact hjx
      have hbeq : (j.source_date == x.source_date) = false := by
        simpa using hne
      unfold insightAfter
      rw [hbeq]
      simp
  have hkey : ∀ x ∈ s, isActive x = true →
      ((autoArchiveIds s).contains x.id = true ↔ 8 ≤ newerActiveCount s x) := by
    intro x hxs hxact
    have hxA : x ∈ activeInsights s := List.mem_filter.mpr ⟨hxs, hxact⟩
    have hxsorted : x ∈ (activeInsights s).insertionSort insightOrder :=
      hperm.mem_iff.mpr hxA
    rw [contains_iff_mem]
    unfold autoArchiveIds
    constructor
    · intro hid
      rcases List.mem_map.mp hid with ⟨y, hy, hyid⟩
      have hyA : y ∈ activeInsights s := hperm.mem_iff.mp (List.mem_of_mem_drop hy)
      have hyx : y = x := hinj y (hAs y hyA) x hxs hyid
      subst hyx
      have h8 := (mem_drop_sorted_iff _ 8 y hsorted hndsorted
        (List.mem_of_mem_drop hy)).mp hy
      rw [hperm.countP_eq, hconv y (hAs y hyA) (hAact y hyA)] at h8
      exact h8
    · intro h8
      refine List.mem_map.mpr ⟨x, ?_, rfl⟩
      refine (mem_drop_sorted_iff _ 8 x hsorted hndsorted hxsorted).mpr ?_
      rw [hperm.countP_eq, hconv x hxs hxact]
      exact h8
  have hnot : ∀ x ∈ s, isActive x = false → (autoArchiveIds s).contains x.id = false := by
    intro x hxs hxact
    by_contra hc
    rw [Bool.not_eq_false, contains_iff_mem] at hc
    unfold autoArchiveIds at hc
    rcases List.mem_map.mp hc with ⟨y, hy, hyid⟩
    have hyA : y ∈ activeInsights s := hperm.mem_iff.mp (List.mem_of_mem_drop hy)
    have hyx : y = x := hinj y (hAs y hyA) x hxs hyid
    rw [hyx] at hyA
    rw [hAact x hyA] at hxact
    exact Bool.noConfusion hxact
  have hmap : auto_archive_step today s = s.map (fun i =>
      if i.display_on_main = true ∧ 8 ≤ newerActiveCount s i then archiveInsight today i
      else i) := by
    unfold auto_archive_step
    apply List.map_congr_left
    intro i hi
    by_cases hdisp : i.display_on_main = true
    · have hact : isActive i = true := by
        unfold isActive
        rw [hdisp, hcons i hi hdisp]
        rfl
      by_cases h8 : 8 ≤ newerActiveCount s i
      · rw [if_pos ((hkey i hi hact).mpr h8), if_pos ⟨hdisp, h8⟩]
      · have hc1 : ¬ ((autoArchiveIds s).contains i.id = true) :=
          fun hc => h8 ((hkey i hi hact).mp hc)
        rw [if_neg hc1, if_neg (fun hcond => h8 hcond.2)]
    · have hact : isActive i = false := by
        unfold isActive
        rw [Bool.not_eq_true] at hdisp
        rw [hdisp]
        rfl
      have hc1 : ¬ ((autoArchiveIds s).contains i.id = true) := by
        rw [hnot i hi hact]
        exact Bool.false_ne_true
      rw [if_neg hc1, if_neg (fun hcond => hdisp hcond.1)]
  refine ⟨?_, hmap⟩
  rw [hmap, ← List.countP_eq_length_filter, List.countP_map]
  have hpt : s.countP ((fun i : InsightRow => i.display_on_main) ∘ (fun i =>
      if i.display_on_main = true ∧ 8 ≤ newerActiveCount s i then archiveInsight today i
      else i)) =
      s.countP (fun i => !(decide (8 ≤ newerActiveCount s i)) && isActive i) := by
    apply List.countP_congr
    intro i hi
    simp only [Function.comp]
    by_cases hdisp : i.display_on_main = true
    · have hact : isActive i = true := by
        unfold isActive
        rw [hdisp, hcons i hi hdisp]
        rfl
      by_cases h8 : 8 ≤ newerActiveCount s i
      · rw [if_pos ⟨hdisp, h8⟩]
        simp [archiveInsight, hact, h8]
      · rw [if_neg (fun hcond => h8 hcond.2)]
        simp [hdisp, hact, h8]
    · rw [if_neg (fun hcond => hdisp hcond.1)]
      have hact : isActive i = false := by
        unfold isActive
        rw [Bool.not_eq_true] at hdisp
        rw [hdisp]
        rfl
      simp [hact, hdisp]
  rw [hpt]
  have hfilt : s.countP (fun i => !(decide (8 ≤ newerActiveCount s i)) && isActive i) =
      (activeInsights s).countP (fun i => !(decide (8 ≤ newerActiveCount s i))) := by
    rw [← List.countP_filter]
    rfl
  rw [hfilt, ← hperm.countP_eq]
  conv_lhs =>
    rw [← List.take_append_drop 8 ((activeInsights s).insertionSort insightOrder)]
  rw [List.countP_append]
  have hdropzero : (((activeInsights s).insertionSort insightOrder).drop 8).countP
      (fun i => !(decide (8 ≤ newerActiveCount s i))) = 0 := by
    rw [List.countP_eq_zero]
    intro y hy
    have hysorted : y ∈ (activeInsights s).insertionSort insightOrder :=
      List.mem_of_mem_drop hy
    have hyA : y ∈ activeInsights s := hperm.mem_iff.mp hysorted
    have h8 := (mem_drop_sorted_iff _ 8 y hsorted hndsorted hysorted).mp hy
    rw [hperm.countP_eq, hconv y (hAs y hyA) (hAact y hyA)] at h8
    simp [h8]
  rw [hdropzero]
  have htake : (((activeInsights s).insertionSort insightOrder).take 8).countP
      (fun i => !(decide (8 ≤ newerActiveCount s i))) ≤
      (((activeInsights s).insertionSort insightOrder).take 8).length :=
    List.countP_le_length _
  have hlen : (((activeInsights s).insertionSort insightOrder).take 8).length ≤ 8 := by
    rw [List.length_take]
    exact Nat.min_le_left _ _
  omega


/-- Witness for C2: the nine-active-insight state satisfies the
hypotheses and the archive step caps the main page at 8. -/
theorem c2_witness :
    ((auto_archive_step "2026-02-11" c2_state).filter
      (fun i => i.display_on_main)).length ≤ 8 ∧
    auto_archive_step "2026-02-11" c2_state = c2_state.map (fun i =>
      if i.display_on_main = true ∧ 8 ≤ newerActiveCount c2_state i
      then archiveInsight "2026-02-11" i else i) :=
  c2_auto_archive_caps_at_8 "2026-02-11" c2_state (by decide) (by decide) (by decide)

/-- Concrete check of the embedding: with nine active insights, exactly
the oldest one (id 1) is flipped to archived with the auto-archive
reason. -/
theorem c2_oldest_archived_check :
    (auto_archive_step "2026-02-11" c2_state).countP (fun i => i.display_on_main) = 8 ∧
    ((auto_archive_step "2026-02-11" c2_state).filter
      (fun i => !i.display_on_main)).map (fun i => (i.id, i.archived_reason)) =
      [(1, some autoArchiveReason)] := by decide

end AIFinance
